import Mathlib

/-!
Verification development for the `outlook_attachment` class of
`outlook_attachment_getter/outlook_attach.py`.

The Python module is sequential glue over three external surfaces: the
Outlook COM automation object, the `zipfile` reader, and a spreadsheet
reader.  The embedding below models those surfaces explicitly:

* A mailbox is a finite tree of named folders (`Folder`), each holding a
  list of emails; an email has a subject, a received time and a list of
  attachments.  `win32com` folder lookup (`Outlook.Folders[name]`,
  `Folder.Folders[name]`) is name lookup in an association list.
* Received times and interval bounds are calendar timestamps at second
  precision (`DateTime`).  Comparison of Python `datetime` objects is
  lexicographic on the fields, which for in-range fields coincides with
  the order of the mixed-radix encoding `DateTime.code`.
* `Items.Restrict("[ReceivedTime] >= '...'")` receives a bound formatted
  with `strftime('%m/%d/%Y %H:%M %p')`.  That format string carries no
  seconds, so the mail client compares against the bound with its seconds
  field dropped; this is modelled by `truncMin` (we assume the client
  honours the 24-hour `%H` field).  `Items.Sort("[ReceivedTime]", True)`
  is a descending sort by received time; the Python scan then takes the
  first subject match whose attachments contain a filename match.
* `SaveAsFile` either succeeds (recorded as a write event) or raises;
  whether it succeeds for a given attachment is part of the environment
  (`Attachment.saveOk`).
* A zip file on disk is seen by the code only through
  `zipfile.is_zipfile` and `namelist()`; the view is an
  `Option (List String)` (`none` for a non-archive).

The `df` field and the `set_df`/`df_getter` methods (spreadsheet load)
are not modelled: no claim below touches them.
-/

namespace OutlookAttach

/-- Calendar timestamp at second precision, mirroring Python
`datetime.datetime` (microseconds are never relevant in this module). -/
structure DateTime where
  year : Nat
  month : Nat
  day : Nat
  hour : Nat
  minute : Nat
  second : Nat
deriving DecidableEq, Repr

/-- Mixed-radix encoding of a timestamp.  For valid field ranges
(month ≤ 12, day ≤ 31, hour < 24, minute < 60, second < 60) this is
strictly monotone in the lexicographic field order, hence comparison of
codes models Python `datetime` comparison. -/
def DateTime.code (t : DateTime) : Nat :=
  ((((t.year * 13 + t.month) * 32 + t.day) * 24 + t.hour) * 60 + t.minute) * 60 + t.second

/-- `a <= b` on timestamps, as Python compares `datetime` objects. -/
def DateTime.le (a b : DateTime) : Bool :=
  decide (a.code ≤ b.code)

/-- The bound actually carried by the `Restrict` filter string: the
`strftime('%m/%d/%Y %H:%M %p')` format has no `%S` directive, so the
seconds of the bound are dropped. -/
def truncMin (t : DateTime) : DateTime :=
  { t with second := 0 }

/-- An email attachment as the code observes it: a file name
(`attachment.FileName`), an abstract identity for its bytes, and whether
`SaveAsFile` succeeds on it in the current environment. -/
structure Attachment where
  fileName : String
  contentId : Nat
  saveOk : Bool
deriving DecidableEq, Repr

/-- An email item: subject, received time, attachments. -/
structure Email where
  subject : String
  received : DateTime
  attachments : List Attachment
deriving DecidableEq, Repr

/-- An Outlook folder: its items and its named subfolders. -/
inductive Folder where
  | mk : List Email → List (String × Folder) → Folder
deriving Repr

/-- The items of a folder (`Folder.Items`). -/
def Folder.items : Folder → List Email
  | .mk it _ => it

/-- The named subfolders of a folder (`Folder.Folders`). -/
def Folder.subs : Folder → List (String × Folder)
  | .mk _ s => s

/-- Name lookup in a folder collection (`Folders[name]`): first pair
whose name matches. -/
def lookupFolder (name : String) : List (String × Folder) → Option Folder
  | [] => none
  | (n, f) :: rest => if n == name then some f else lookupFolder name rest

/-- Descend from a folder through the remaining path segments. -/
def resolveFrom (f : Folder) : List String → Option Folder
  | [] => some f
  | n :: rest =>
    match lookupFolder n f.subs with
    | none => none
    | some f2 => resolveFrom f2 rest

/-- The folder-resolution loop of `get_attachment`: the first segment is
looked up in `Outlook.Folders`, each later one in the previous folder's
`Folders`.  An empty `folderpath_list` leaves the Python local `Folder`
unbound (a `NameError` at `Folder.Items`); like a missing segment (a COM
lookup error) it aborts resolution, so both are modelled as `none`. -/
def resolvePath (outlook : List (String × Folder)) : List String → Option Folder
  | [] => none
  | n :: rest =>
    match lookupFolder n outlook with
    | none => none
    | some f => resolveFrom f rest

/-- The mutable state of an `outlook_attachment` instance that the
modelled methods touch: `self.attachment_filepath`. -/
structure OA where
  attachment_filepath : Option String
deriving DecidableEq, Repr

/-- The hard-failure exits of `get_attachment`. -/
inductive Err where
  | savePathRequired
  | startAfterEnd
  | noneTypeStrftime
  | folderNotFound
  | notFound (msg : String)
  | saveFailed
deriving DecidableEq, Repr

/-- Return value of `get_attachment`: `ok none` is Python `return None`
(the saved case), `ok (some a)` returns the live attachment handle. -/
inductive FetchRes where
  | ok (ret : Option Attachment)
  | err (e : Err)
deriving DecidableEq, Repr

/-- One run of `get_attachment`: its result, the final instance state,
the `SaveAsFile` write events `(path, attachment)` it performed, and
whether the Outlook COM session object was created. -/
structure FetchRun where
  result : FetchRes
  state : OA
  writes : List (String × Attachment)
  dispatched : Bool
deriving DecidableEq, Repr

/-- `("\\" in p) or ("/" in p)`: the destination-path separator test. -/
def hasSep (p : String) : Bool :=
  p.data.any (fun c => c == '\\' || c == '/')

/-- The guard that raises `save_attachment_as requires a full path`. -/
def badSave : Option String → Bool
  | none => false
  | some p => !(hasSep p)

/-- The guard that raises when both bounds are given and start > end. -/
def badBounds : Option DateTime → Option DateTime → Bool
  | some s, some e => !(DateTime.le s e)
  | _, _ => false

/-- First attachment of the list whose `FileName` equals the query name
(the inner `for attachment in email.Attachments` loop). -/
def attachMatch (att : String) : List Attachment → Option Attachment
  | [] => none
  | a :: rest => if a.fileName == att then some a else attachMatch att rest

/-- The scan loop over the sorted emails: first email whose subject
equals the query subject and whose attachments contain a filename
match, together with that attachment. -/
def findMatch (subj att : String) : List Email → Option (Email × Attachment)
  | [] => none
  | em :: rest =>
    if em.subject == subj then
      match attachMatch att em.attachments with
      | some a => some (em, a)
      | none => findMatch subj att rest
    else findMatch subj att rest

/-- Descending-by-received-time order used by
`emails.Sort("[ReceivedTime]", True)`. -/
def recDesc (a b : Email) : Prop :=
  b.received.code ≤ a.received.code

instance : DecidableRel recDesc := fun a b =>
  inferInstanceAs (Decidable (b.received.code ≤ a.received.code))

instance : IsTotal Email recDesc :=
  ⟨fun a b => Nat.le_total b.received.code a.received.code⟩

instance : IsTrans Email recDesc :=
  ⟨fun _ _ _ hab hbc => Nat.le_trans hbc hab⟩

/-- The descending sort of the restricted items.  Outlook's sort order
among equal received times is unspecified; any descending reordering
gives the behaviour the code relies on, so a concrete stable sort is
used. -/
def sortDesc (l : List Email) : List Email :=
  l.insertionSort recDesc

/-- The two `Restrict` filters applied in source order: received time at
least the minute-truncated start, then at most the minute-truncated
end. -/
def filteredEmails (folder : Folder) (s e : DateTime) : List Email :=
  (folder.items.filter (fun em => (truncMin s).le em.received)).filter
    (fun em => em.received.le (truncMin e))

/-- The message of the `NotFound` exception raised when the scan finds
no subject/attachment match. -/
def notFoundMsg (subj att : String) : String :=
  "Could not find email " ++ subj ++ " with attachment " ++ att ++
    " within (un)specified time interval."

/-- Shallow embedding of `outlook_attachment.get_attachment`, in source
order: the separator guard on `save_attachment_as`; the start ≤ end
guard; the two unconditional progress prints, which evaluate
`start_interval.strftime(...)` and `end_interval.strftime(...)` and
hence raise `AttributeError` when the corresponding bound is `None`;
the COM dispatch; folder resolution; the two `Restrict` filters; the
descending sort; the scan; and the save / return / not-found exits.
The Python type assertions vanish in the typed embedding. -/
def getAttachment (st : OA) (outlook : List (String × Folder))
    (folderpath_list : List String)
    (email_subject_name email_attachment_name : String)
    (start_interval end_interval : Option DateTime)
    (save_attachment_as : Option String) : FetchRun :=
  if badSave save_attachment_as then
    ⟨.err .savePathRequired, st, [], false⟩
  else if badBounds start_interval end_interval then
    ⟨.err .startAfterEnd, st, [], false⟩
  else
    match start_interval with
    | none => ⟨.err .noneTypeStrftime, st, [], false⟩
    | some s =>
      match end_interval with
      | none => ⟨.err .noneTypeStrftime, st, [], false⟩
      | some e =>
        match resolvePath outlook folderpath_list with
        | none => ⟨.err .folderNotFound, st, [], true⟩
        | some folder =>
          match findMatch email_subject_name email_attachment_name
              (sortDesc (filteredEmails folder s e)) with
          | none =>
            ⟨.err (.notFound (notFoundMsg email_subject_name email_attachment_name)),
              st, [], true⟩
          | some (_, a) =>
            match save_attachment_as with
            | some path =>
              if a.saveOk then
                ⟨.ok none, { st with attachment_filepath := some path },
                  [(path, a)], true⟩
              else
                ⟨.err .saveFailed, st, [], true⟩
            | none => ⟨.ok (some a), st, [], true⟩

/-- An email matches the query when its subject is the query subject and
some attachment carries the query filename. -/
def emailMatches (subj att : String) (em : Email) : Prop :=
  em.subject = subj ∧ ∃ a ∈ em.attachments, a.fileName = att

/-- A `save_attachment_as` argument that passes the separator guard:
either absent, or a path containing a separator. -/
def validSave : Option String → Bool
  | none => true
  | some p => hasSep p

/-- `pat` is a leading run of `l` (character-by-character equality). -/
def charsLead : List Char → List Char → Bool
  | [], _ => true
  | _ :: _, [] => false
  | a :: as, b :: bs => a == b && charsLead as bs

/-- `pat` occurs contiguously somewhere in `l` (Python `pat in s` on
strings; the empty pattern occurs in everything). -/
def charsHas (pat : List Char) : List Char → Bool
  | [] => pat.isEmpty
  | c :: rest => charsLead pat (c :: rest) || charsHas pat rest

/-- Python substring containment `pat in s`. -/
def strHas (pat s : String) : Bool :=
  charsHas pat.data s.data

/-- The member test of the extraction loop: full equality in exact mode,
substring containment otherwise. -/
def matchesName (exact : Bool) (extract_file_name name : String) : Bool :=
  if exact then extract_file_name == name else strHas extract_file_name name

/-- The loop-carried locals of `extract_zip_content`: the member names
extracted so far (each extraction also prints its resulting path), the
current value of the (shadowed) `filepath` variable, and `file_found`. -/
structure ZipState where
  extracted : List String
  filepath : String
  file_found : Bool
deriving DecidableEq, Repr

/-- The member loop of `extract_zip_content`: each matching member is
extracted to the destination folder and `filepath` is reassigned to
`save_unzipped_folder + "\\" + member`. -/
def extractLoop (extract_file_name save_unzipped_folder : String)
    (exact : Bool) : List String → ZipState → ZipState
  | [], z => z
  | name :: rest, z =>
    if matchesName exact extract_file_name name then
      extractLoop extract_file_name save_unzipped_folder exact rest
        ⟨z.extracted ++ [name], save_unzipped_folder ++ "\\" ++ name, true⟩
    else
      extractLoop extract_file_name save_unzipped_folder exact rest z

/-- How a run of `extract_zip_content` ends: a normal return (at least
one member extracted), the not-a-zip warning print, the
could-not-find warning print, or the `NameError` raised by that final
print when the member loop ran zero times (empty archive), because it
interpolates the then-unbound loop variable `file_name`. -/
inductive ExtractOutcome where
  | returned
  | notZipWarning
  | notFoundWarning
  | nameError
deriving DecidableEq, Repr

/-- One run of `extract_zip_content`: the (unchanged) instance state,
the extracted member names in loop order, the final value of the
`filepath` variable, and how the run ended. -/
structure ExtractRun where
  state : OA
  extracted : List String
  filepath : String
  outcome : ExtractOutcome
deriving DecidableEq, Repr

/-- Shallow embedding of `outlook_attachment.extract_zip_content`.
`zipView` is the archive as the code observes it through
`zipfile.is_zipfile` / `namelist()`: `none` for a non-archive file,
`some names` for a valid archive with those member names.  The method
assigns no instance field, so the state is passed through unchanged. -/
def extract_zip_content (st : OA) (zipView : Option (List String))
    (filepath : String) (extract_file_name save_unzipped_folder : String)
    (exact : Bool) : ExtractRun :=
  match zipView with
  | none => ⟨st, [], filepath, .notZipWarning⟩
  | some names =>
    let z := extractLoop extract_file_name save_unzipped_folder exact names
      ⟨[], filepath, false⟩
    ⟨st, z.extracted, z.filepath,
      if z.file_found then .returned
      else
        match names.getLast? with
        | none => .nameError
        | some _ => .notFoundWarning⟩

/-- Midnight of the day of `t` (`dt.datetime(year, month, day)` built
from `dt.date.today()`). -/
def startOfDay (t : DateTime) : DateTime :=
  ⟨t.year, t.month, t.day, 0, 0, 0⟩

/-- Shallow embedding of `outlook_attachment.get_today_interval`.  The
method reads the clock twice — `dt.date.today()` for the date, then
`dt.datetime.today()` for the end instant — so the two reads are two
parameters. -/
def get_today_interval (now_date now_time : DateTime) : DateTime × DateTime :=
  (startOfDay now_date, now_time)

/-! General lemmas about the embedded operations. -/

theorem DateTime.le_iff {a b : DateTime} : a.le b = true ↔ a.code ≤ b.code := by
  simp [DateTime.le]

theorem truncMin_code_le (t : DateTime) : (truncMin t).code ≤ t.code := by
  simp only [truncMin, DateTime.code]
  omega

theorem mem_filteredEmails {folder : Folder} {s e : DateTime} {em : Email} :
    em ∈ filteredEmails folder s e ↔
      em ∈ folder.items ∧ (truncMin s).code ≤ em.received.code
        ∧ em.received.code ≤ (truncMin e).code := by
  simp only [filteredEmails, List.mem_filter, DateTime.le, decide_eq_true_eq]
  tauto

theorem attachMatch_some {att : String} :
    ∀ {l : List Attachment} {a : Attachment},
      attachMatch att l = some a → a ∈ l ∧ a.fileName = att := by
  intro l
  induction l with
  | nil => intro a h; simp [attachMatch] at h
  | cons a0 rest ih =>
    intro a h
    rw [attachMatch] at h
    by_cases hb : a0.fileName == att
    · rw [if_pos hb] at h
      cases h
      exact ⟨List.mem_cons_self _ _, by simpa using hb⟩
    · rw [if_neg hb] at h
      obtain ⟨hmem, hname⟩ := ih h
      exact ⟨List.mem_cons_of_mem _ hmem, hname⟩

theorem attachMatch_none {att : String} :
    ∀ {l : List Attachment}, attachMatch att l = none →
      ∀ a ∈ l, a.fileName ≠ att := by
  intro l
  induction l with
  | nil => intro _ a ha; simp at ha
  | cons a0 rest ih =>
    intro h a ha
    rw [attachMatch] at h
    by_cases hb : a0.fileName == att
    · rw [if_pos hb] at h; cases h
    · rw [if_neg hb] at h
      rcases List.mem_cons.mp ha with rfl | ha2
      · exact fun heq => hb (by simp [heq])
      · exact ih h a ha2

theorem findMatch_some {subj att : String} :
    ∀ {l : List Email} {em : Email} {a : Attachment},
      findMatch subj att l = some (em, a) →
      em ∈ l ∧ em.subject = subj ∧ a ∈ em.attachments ∧ a.fileName = att := by
  intro l
  induction l with
  | nil => intro em a h; simp [findMatch] at h
  | cons x xs ih =>
    intro em a h
    rw [findMatch] at h
    by_cases hx : x.subject == subj
    · rw [if_pos hx] at h
      cases hma : attachMatch att x.attachments with
      | some a0 =>
        rw [hma] at h
        obtain ⟨rfl, rfl⟩ : x = em ∧ a0 = a := by simpa using h
        obtain ⟨hmem, hname⟩ := attachMatch_some hma
        exact ⟨List.mem_cons_self _ _, by simpa using hx, hmem, hname⟩
      | none =>
        rw [hma] at h
        obtain ⟨hmem, hrest⟩ := ih h
        exact ⟨List.mem_cons_of_mem _ hmem, hrest⟩
    · rw [if_neg hx] at h
      obtain ⟨hmem, hrest⟩ := ih h
      exact ⟨List.mem_cons_of_mem _ hmem, hrest⟩

theorem findMatch_max {subj att : String} :
    ∀ {l : List Email} {em : Email} {a : Attachment},
      l.Sorted recDesc → findMatch subj att l = some (em, a) →
      ∀ em' ∈ l, emailMatches subj att em' →
        em'.received.code ≤ em.received.code := by
  intro l
  induction l with
  | nil => intro em a _ h; simp [findMatch] at h
  | cons x xs ih =>
    intro em a hs h em' hmem hmatch
    rw [List.sorted_cons] at hs
    obtain ⟨hhead, htail⟩ := hs
    rw [findMatch] at h
    by_cases hx : x.subject == subj
    · rw [if_pos hx] at h
      cases hma : attachMatch att x.attachments with
      | some a0 =>
        rw [hma] at h
        obtain ⟨rfl, rfl⟩ : x = em ∧ a0 = a := by simpa using h
        rcases List.mem_cons.mp hmem with rfl | hmem2
        · exact Nat.le_refl _
        · exact hhead em' hmem2
      | none =>
        rw [hma] at h
        rcases List.mem_cons.mp hmem with rfl | hmem2
        · obtain ⟨_, a', ha', hname⟩ := hmatch
          exact absurd hname (attachMatch_none hma a' ha')
        · exact ih htail h em' hmem2 hmatch
    · rw [if_neg hx] at h
      rcases List.mem_cons.mp hmem with rfl | hmem2
      · exact absurd hmatch.1 (by simpa using hx)
      · exact ih htail h em' hmem2 hmatch

theorem mem_sortDesc {l : List Email} {em : Email} :
    em ∈ sortDesc l ↔ em ∈ l :=
  List.mem_insertionSort recDesc

theorem sortDesc_sorted (l : List Email) : (sortDesc l).Sorted recDesc :=
  List.sorted_insertionSort recDesc l

theorem badSave_none : badSave none = false := rfl

theorem getAttachment_eq_scan (st : OA) (outlook : List (String × Folder))
    (fl : List String) (subj att : String) {s e : DateTime} {save : Option String}
    (hsave : badSave save = false) (hse : DateTime.le s e = true)
    {folder : Folder} (hf : resolvePath outlook fl = some folder) :
    getAttachment st outlook fl subj att (some s) (some e) save
      = match findMatch subj att (sortDesc (filteredEmails folder s e)) with
        | none => ⟨.err (.notFound (notFoundMsg subj att)), st, [], true⟩
        | some (_, a) =>
          match save with
          | some path =>
            if a.saveOk then
              ⟨.ok none, { st with attachment_filepath := some path },
                [(path, a)], true⟩
            else ⟨.err .saveFailed, st, [], true⟩
          | none => ⟨.ok (some a), st, [], true⟩ := by
  simp [getAttachment, hsave, hse, hf, badBounds]
  cases save <;> rfl

theorem fetch_state_cases (st : OA) (outlook : List (String × Folder))
    (fl : List String) (subj att : String)
    (si ei : Option DateTime) (save : Option String) :
    (getAttachment st outlook fl subj att si ei save).state = st
    ∨ (getAttachment st outlook fl subj att si ei save).result = .ok none := by
  unfold getAttachment
  repeat' split
  all_goals simp

theorem extractLoop_spec (efn folder : String) (exact : Bool) :
    ∀ (names acc : List String) (fp : String) (fnd : Bool),
      extractLoop efn folder exact names ⟨acc, fp, fnd⟩
        = ⟨acc ++ names.filter (matchesName exact efn),
           (names.filter (matchesName exact efn)).foldl
             (fun _ m => folder ++ "\\" ++ m) fp,
           fnd || names.any (matchesName exact efn)⟩ := by
  intro names
  induction names with
  | nil => intro acc fp fnd; simp [extractLoop]
  | cons n rest ih =>
    intro acc fp fnd
    by_cases h : matchesName exact efn n
    · simp [extractLoop, h, ih, List.filter_cons, List.any_cons]
    · simp [extractLoop, h, ih, List.filter_cons, List.any_cons]

theorem foldl_repl_last (folder : String) :
    ∀ (l : List String) (m fp : String), l.getLast? = some m →
      l.foldl (fun _ x => folder ++ "\\" ++ x) fp = folder ++ "\\" ++ m := by
  intro l
  induction l with
  | nil => intro m fp h; cases h
  | cons x xs ih =>
    intro m fp h
    cases xs with
    | nil =>
      simp only [List.getLast?_singleton, Option.some.injEq] at h
      subst h
      rfl
    | cons y ys =>
      rw [List.foldl_cons]
      exact ih m _ (by simpa [List.getLast?_cons_cons] using h)

/-! Claim theorems. -/

/-- C1: with both interval bounds given (start ≤ end), when the scan of
the descending-sorted, filtered items selects a pair `(em, a)`, the
fetch returns that attachment, `em` matches the query, and every
matching email in the filtered items has received time at most
`em.received` — i.e. the selected email has the maximum received time
among the matches, because the items are sorted by received time
descending before the scan.  (The selection is the same whether or not
a destination path is given; the no-destination form is stated.) -/
theorem fetch_returns_max_received (st : OA) (outlook : List (String × Folder))
    (fl : List String) (subj att : String) (s e : DateTime)
    (hse : DateTime.le s e = true) (folder : Folder)
    (hf : resolvePath outlook fl = some folder) (em : Email) (a : Attachment)
    (hm : findMatch subj att (sortDesc (filteredEmails folder s e)) = some (em, a)) :
    (getAttachment st outlook fl subj att (some s) (some e) none).result
        = .ok (some a)
    ∧ em ∈ filteredEmails folder s e ∧ em.subject = subj ∧ a ∈ em.attachments
    ∧ a.fileName = att
    ∧ ∀ em' ∈ filteredEmails folder s e, emailMatches subj att em' →
        em'.received.code ≤ em.received.code := by
  have hrun := getAttachment_eq_scan st outlook fl subj att badSave_none hse hf
  obtain ⟨hmem, hsubj, hatt, hname⟩ := findMatch_some hm
  refine ⟨?_, mem_sortDesc.mp hmem, hsubj, hatt, hname, ?_⟩
  · rw [hrun, hm]
  · intro em' hmem' hmatch'
    exact findMatch_max (sortDesc_sorted _) hm em' (mem_sortDesc.mpr hmem') hmatch'

def w1Att1 : Attachment := ⟨"export.zip", 1, true⟩

def w1Att2 : Attachment := ⟨"export.zip", 2, true⟩

def w1Em1 : Email := ⟨"Daily Export", ⟨2021, 7, 27, 3, 0, 0⟩, [w1Att1]⟩

def w1Em2 : Email := ⟨"Daily Export", ⟨2021, 7, 27, 9, 0, 0⟩, [w1Att2]⟩

def w1Folder : Folder := .mk [w1Em1, w1Em2] []

/-- Witness for C1: two matching emails received 03:00 and 09:00 inside
the interval 01:00–12:00; the 09:00 attachment is the one returned. -/
theorem fetch_returns_max_received_witness :
    DateTime.le ⟨2021, 7, 27, 1, 0, 0⟩ ⟨2021, 7, 27, 12, 0, 0⟩ = true
    ∧ (getAttachment ⟨none⟩ [("Inbox", w1Folder)] ["Inbox"] "Daily Export"
        "export.zip" (some ⟨2021, 7, 27, 1, 0, 0⟩) (some ⟨2021, 7, 27, 12, 0, 0⟩)
        none).result = .ok (some w1Att2) :=
  ⟨by decide,
    (fetch_returns_max_received ⟨none⟩ [("Inbox", w1Folder)] ["Inbox"]
      "Daily Export" "export.zip" ⟨2021, 7, 27, 1, 0, 0⟩ ⟨2021, 7, 27, 12, 0, 0⟩
      (by decide) w1Folder rfl w1Em2 w1Att2 (by decide)).1⟩

/-- C2: a successful fetch with a destination path returns the
saved-form result — Python `return None`, so no in-memory handle — and
records the destination as the instance's `attachment_filepath`, having
written the attachment to exactly that path. -/
theorem fetch_save_records_path (st : OA) (outlook : List (String × Folder))
    (fl : List String) (subj att : String) (s e : DateTime) (path : String)
    (hsep : hasSep path = true) (hse : DateTime.le s e = true) (folder : Folder)
    (hf : resolvePath outlook fl = some folder) (em : Email) (a : Attachment)
    (hm : findMatch subj att (sortDesc (filteredEmails folder s e)) = some (em, a))
    (hok : a.saveOk = true) :
    getAttachment st outlook fl subj att (some s) (some e) (some path)
      = ⟨.ok none, ⟨some path⟩, [(path, a)], true⟩ := by
  have hb : badSave (some path) = false := by simp [badSave, hsep]
  rw [getAttachment_eq_scan st outlook fl subj att hb hse hf, hm]
  simp [hok]

def w2Att : Attachment := ⟨"export.zip", 2, true⟩

def w2Em : Email := ⟨"Daily Export", ⟨2021, 7, 27, 9, 0, 0⟩, [w2Att]⟩

def w2Folder : Folder := .mk [w2Em] []

/-- Witness for C2: the attachment is saved to `C:\tmp\export.zip`, the
path is recorded, and the result carries no handle. -/
theorem fetch_save_records_path_witness :
    hasSep "C:\\tmp\\export.zip" = true
    ∧ getAttachment ⟨none⟩ [("Inbox", w2Folder)] ["Inbox"] "Daily Export"
        "export.zip" (some ⟨2021, 7, 27, 1, 0, 0⟩) (some ⟨2021, 7, 27, 12, 0, 0⟩)
        (some "C:\\tmp\\export.zip")
      = ⟨.ok none, ⟨some "C:\\tmp\\export.zip"⟩, [("C:\\tmp\\export.zip", w2Att)], true⟩ :=
  ⟨by decide,
    fetch_save_records_path ⟨none⟩ [("Inbox", w2Folder)] ["Inbox"] "Daily Export"
      "export.zip" ⟨2021, 7, 27, 1, 0, 0⟩ ⟨2021, 7, 27, 12, 0, 0⟩ "C:\\tmp\\export.zip"
      (by decide) (by decide) w2Folder rfl w2Em w2Att (by decide) (by decide)⟩

/-- C3 counterexample: the claim "fetch never selects an email received
outside the inclusive [start, end], at second precision" fails.  The
`Restrict` filter string is built with `strftime('%m/%d/%Y %H:%M %p')`,
which drops seconds, so with start 10:30:45 and end 10:31:00 (a valid
interval, third conjunct) the sole email, received 10:30:00 — strictly
before start (second conjunct) — passes the filter and its attachment
is returned (first conjunct). -/
theorem fetch_interval_seconds_cex :
    (getAttachment ⟨none⟩
        [("f", Folder.mk [⟨"s", ⟨2021, 7, 27, 10, 30, 0⟩, [⟨"a.xlsx", 0, true⟩]⟩] [])]
        ["f"] "s" "a.xlsx" (some ⟨2021, 7, 27, 10, 30, 45⟩)
        (some ⟨2021, 7, 27, 10, 31, 0⟩) none).result
      = .ok (some ⟨"a.xlsx", 0, true⟩)
    ∧ DateTime.le ⟨2021, 7, 27, 10, 30, 45⟩ ⟨2021, 7, 27, 10, 30, 0⟩ = false
    ∧ DateTime.le ⟨2021, 7, 27, 10, 30, 45⟩ ⟨2021, 7, 27, 10, 31, 0⟩ = true := by
  decide

/-- C3 amended: the filters compare received times against the bounds
with seconds dropped (minute precision), so any email the fetch selects
has received time in `[truncMin start, truncMin end]`; in particular it
is never after `end`, but it may precede `start` by up to 59 seconds. -/
theorem fetch_within_truncated_interval (st : OA) (outlook : List (String × Folder))
    (fl : List String) (subj att : String) (s e : DateTime)
    (hse : DateTime.le s e = true) (folder : Folder)
    (hf : resolvePath outlook fl = some folder) (em : Email) (a : Attachment)
    (hm : findMatch subj att (sortDesc (filteredEmails folder s e)) = some (em, a)) :
    (getAttachment st outlook fl subj att (some s) (some e) none).result
        = .ok (some a)
    ∧ (truncMin s).code ≤ em.received.code
    ∧ em.received.code ≤ (truncMin e).code
    ∧ em.received.code ≤ e.code := by
  have hrun := getAttachment_eq_scan st outlook fl subj att badSave_none hse hf
  obtain ⟨hmem, _, _, _⟩ := findMatch_some hm
  have hfe := mem_filteredEmails.mp (mem_sortDesc.mp hmem)
  exact ⟨by rw [hrun, hm], hfe.2.1, hfe.2.2, Nat.le_trans hfe.2.2 (truncMin_code_le e)⟩

def w3Att : Attachment := ⟨"a.xlsx", 0, true⟩

def w3Em : Email := ⟨"s", ⟨2021, 7, 27, 10, 30, 0⟩, [w3Att]⟩

def w3Folder : Folder := .mk [w3Em] []

/-- Witness for the amended C3 at the counterexample's input. -/
theorem fetch_within_truncated_interval_witness :
    DateTime.le ⟨2021, 7, 27, 10, 30, 45⟩ ⟨2021, 7, 27, 10, 31, 0⟩ = true
    ∧ (getAttachment ⟨none⟩ [("f", w3Folder)] ["f"] "s" "a.xlsx"
        (some ⟨2021, 7, 27, 10, 30, 45⟩) (some ⟨2021, 7, 27, 10, 31, 0⟩) none).result
      = .ok (some w3Att) :=
  ⟨by decide,
    (fetch_within_truncated_interval ⟨none⟩ [("f", w3Folder)] ["f"] "s" "a.xlsx"
      ⟨2021, 7, 27, 10, 30, 45⟩ ⟨2021, 7, 27, 10, 31, 0⟩ (by decide) w3Folder
      rfl w3Em w3Att (by decide)).1⟩

/-- C4 (code bug): with a missing interval bound the call does not skip
the corresponding filter — it crashes.  The unconditional progress
prints evaluate `start_interval.strftime(...)` and
`end_interval.strftime(...)` before the COM dispatch, so a `None` bound
raises `AttributeError` there: the run ends in `noneTypeStrftime`, the
mail client is never contacted, nothing is written, and the state is
unchanged.  This contradicts the docstring (both bounds "(optional)")
and the later `if start_interval is not None` guards. -/
theorem fetch_missing_bound_crashes (st : OA) (outlook : List (String × Folder))
    (fl : List String) (subj att : String) (s : DateTime) (ei : Option DateTime) :
    getAttachment st outlook fl subj att none ei none
        = ⟨.err .noneTypeStrftime, st, [], false⟩
    ∧ getAttachment st outlook fl subj att (some s) none none
        = ⟨.err .noneTypeStrftime, st, [], false⟩ := by
  constructor
  · cases ei <;> rfl
  · rfl

/-- C5: a destination path without a path separator is rejected up
front: the run fails with `savePathRequired` before the COM session is
created (`dispatched = false`), with no write and no state change. -/
theorem fetch_bare_filename_fails_early (st : OA) (outlook : List (String × Folder))
    (fl : List String) (subj att : String) (si ei : Option DateTime) (path : String)
    (h : hasSep path = false) :
    getAttachment st outlook fl subj att si ei (some path)
      = ⟨.err .savePathRequired, st, [], false⟩ := by
  simp [getAttachment, badSave, h]

/-- Witness for C5: a bare filename destination. -/
theorem fetch_bare_filename_fails_early_witness :
    hasSep "report.xlsx" = false
    ∧ getAttachment ⟨none⟩ [] [] "s" "a" none none (some "report.xlsx")
      = ⟨.err .savePathRequired, ⟨none⟩, [], false⟩ :=
  ⟨by decide,
    fetch_bare_filename_fails_early ⟨none⟩ [] [] "s" "a" none none "report.xlsx"
      (by decide)⟩

/-- C6: when no email/attachment combination matches in the resolved,
filtered folder, the fetch raises the not-found hard failure, whose
message names the query subject, the query attachment name, and refers
to the interval in its (un)bounded form — it is exactly the string
`Could not find email <subject> with attachment <name> within
(un)specified time interval.`  Nothing is written and the state is
unchanged. -/
theorem fetch_not_found_error (st : OA) (outlook : List (String × Folder))
    (fl : List String) (subj att : String) (save : Option String) (s e : DateTime)
    (hsave : validSave save = true) (hse : DateTime.le s e = true) (folder : Folder)
    (hf : resolvePath outlook fl = some folder)
    (hm : findMatch subj att (sortDesc (filteredEmails folder s e)) = none) :
    getAttachment st outlook fl subj att (some s) (some e) save
      = ⟨.err (.notFound ("Could not find email " ++ subj ++ " with attachment "
          ++ att ++ " within (un)specified time interval.")), st, [], true⟩ := by
  have hb : badSave save = false := by
    cases save with
    | none => rfl
    | some p => simpa [validSave, badSave] using hsave
  rw [getAttachment_eq_scan st outlook fl subj att hb hse hf, hm]
  rfl

def w6Folder : Folder := .mk [⟨"Daily Export", ⟨2021, 7, 27, 9, 0, 0⟩, []⟩] []

/-- Witness for C6: the matching subject exists but carries no matching
attachment, so the not-found error is raised with the full message. -/
theorem fetch_not_found_error_witness :
    validSave (none : Option String) = true
    ∧ getAttachment ⟨none⟩ [("Inbox", w6Folder)] ["Inbox"] "Daily Export"
        "export.zip" (some ⟨2021, 7, 27, 1, 0, 0⟩) (some ⟨2021, 7, 27, 12, 0, 0⟩) none
      = ⟨.err (.notFound ("Could not find email " ++ "Daily Export"
          ++ " with attachment " ++ "export.zip"
          ++ " within (un)specified time interval.")), ⟨none⟩, [], true⟩ :=
  ⟨by decide,
    fetch_not_found_error ⟨none⟩ [("Inbox", w6Folder)] ["Inbox"] "Daily Export"
      "export.zip" none ⟨2021, 7, 27, 1, 0, 0⟩ ⟨2021, 7, 27, 12, 0, 0⟩
      (by decide) (by decide) w6Folder rfl (by decide)⟩

/-- C7: against a valid archive, the extraction extracts exactly the
members selected by the match mode — full equality of the name in exact
mode, substring containment in substring mode — in member order, and
when at least one member matches, the final reported path is the
destination folder joined with the last matching member's name. -/
theorem extract_exact_substring_filter (st : OA) (zipNames : List String)
    (filepath efn folder : String) (exact : Bool) :
    (extract_zip_content st (some zipNames) filepath efn folder exact).extracted
        = zipNames.filter (matchesName exact efn)
    ∧ (∀ name, name ∈ (extract_zip_content st (some zipNames) filepath efn folder
          exact).extracted
        ↔ name ∈ zipNames ∧ matchesName exact efn name = true)
    ∧ ∀ m, (zipNames.filter (matchesName exact efn)).getLast? = some m →
        (extract_zip_content st (some zipNames) filepath efn folder exact).filepath
          = folder ++ "\\" ++ m := by
  have hz : extractLoop efn folder exact zipNames ⟨[], filepath, false⟩
      = ⟨zipNames.filter (matchesName exact efn),
         (zipNames.filter (matchesName exact efn)).foldl
           (fun _ m => folder ++ "\\" ++ m) filepath,
         false || zipNames.any (matchesName exact efn)⟩ := by
    simpa using extractLoop_spec efn folder exact zipNames [] filepath false
  refine ⟨?_, ?_, ?_⟩
  · simp [extract_zip_content, hz]
  · intro name
    simp [extract_zip_content, hz, List.mem_filter]
  · intro m hm
    simp only [extract_zip_content, hz]
    exact foldl_repl_last folder _ m filepath hm

/-- Witness for C7: substring mode with member `2021_report_final.csv`
and target `report` extracts that member and reports
`C:\tmp\out\2021_report_final.csv`. -/
theorem extract_exact_substring_filter_witness :
    (extract_zip_content ⟨none⟩ (some ["2021_report_final.csv", "notes.txt"])
        "export.zip" "report" "C:\\tmp\\out" false).extracted
      = ["2021_report_final.csv"]
    ∧ (extract_zip_content ⟨none⟩ (some ["2021_report_final.csv", "notes.txt"])
        "export.zip" "report" "C:\\tmp\\out" false).filepath
      = "C:\\tmp\\out" ++ "\\" ++ "2021_report_final.csv" :=
  ⟨(extract_exact_substring_filter ⟨none⟩ ["2021_report_final.csv", "notes.txt"]
      "export.zip" "report" "C:\\tmp\\out" false).1.trans (by decide),
    (extract_exact_substring_filter ⟨none⟩ ["2021_report_final.csv", "notes.txt"]
      "export.zip" "report" "C:\\tmp\\out" false).2.2 "2021_report_final.csv"
      (by decide)⟩

/-- C8 (code bug): the soft-failure policy breaks on a valid archive
with no members.  The member loop then runs zero times, so the Python
loop variable `file_name` is never bound, and the final
`Could not find file ...` print raises `UnboundLocalError` instead of
warning: the run ends in `nameError`.  (Nothing is extracted and the
state — here a non-trivial prior path — is unchanged, but control does
not return normally.)  For a non-archive source, and for a non-empty
archive with no match, the code does warn and return as claimed. -/
theorem extract_empty_zip_name_error :
    extract_zip_content ⟨some "C:\\prev\\a.zip"⟩ (some []) "C:\\prev\\a.zip"
        "report.csv" "C:\\out" false
      = ⟨⟨some "C:\\prev\\a.zip"⟩, [], "C:\\prev\\a.zip", .nameError⟩
    ∧ extract_zip_content ⟨some "C:\\prev\\a.zip"⟩ none "C:\\prev\\notzip.txt"
        "report.csv" "C:\\out" false
      = ⟨⟨some "C:\\prev\\a.zip"⟩, [], "C:\\prev\\notzip.txt", .notZipWarning⟩
    ∧ extract_zip_content ⟨some "C:\\prev\\a.zip"⟩ (some ["other.csv"])
        "C:\\prev\\a.zip" "report.csv" "C:\\out" false
      = ⟨⟨some "C:\\prev\\a.zip"⟩, [], "C:\\prev\\a.zip", .notFoundWarning⟩ := by
  decide

/-- C9: `get_today_interval` returns midnight of the day read by
`dt.date.today()` — hour, minute and second all zero — paired with the
instant read by `dt.datetime.today()`; provided the clock does not run
backwards between the two reads, the pair satisfies start ≤ end. -/
theorem today_interval_spec (now_date now_time : DateTime)
    (h : DateTime.le now_date now_time = true) :
    (get_today_interval now_date now_time).1.hour = 0
    ∧ (get_today_interval now_date now_time).1.minute = 0
    ∧ (get_today_interval now_date now_time).1.second = 0
    ∧ (get_today_interval now_date now_time).1.year = now_date.year
    ∧ (get_today_interval now_date now_time).1.month = now_date.month
    ∧ (get_today_interval now_date now_time).1.day = now_date.day
    ∧ (get_today_interval now_date now_time).2 = now_time
    ∧ DateTime.le (get_today_interval now_date now_time).1
        (get_today_interval now_date now_time).2 = true := by
  refine ⟨rfl, rfl, rfl, rfl, rfl, rfl, rfl, ?_⟩
  simp only [get_today_interval, startOfDay, DateTime.le, DateTime.code,
    decide_eq_true_eq] at h ⊢
  omega

/-- Witness for C9 at the docstring's example instant 11:07:13. -/
theorem today_interval_spec_witness :
    DateTime.le ⟨2021, 7, 15, 11, 7, 13⟩ ⟨2021, 7, 15, 11, 7, 13⟩ = true
    ∧ (get_today_interval ⟨2021, 7, 15, 11, 7, 13⟩ ⟨2021, 7, 15, 11, 7, 13⟩).1.hour = 0
    ∧ DateTime.le (get_today_interval ⟨2021, 7, 15, 11, 7, 13⟩ ⟨2021, 7, 15, 11, 7, 13⟩).1
        (get_today_interval ⟨2021, 7, 15, 11, 7, 13⟩ ⟨2021, 7, 15, 11, 7, 13⟩).2 = true := by
  have h := today_interval_spec ⟨2021, 7, 15, 11, 7, 13⟩ ⟨2021, 7, 15, 11, 7, 13⟩
    (by decide)
  exact ⟨by decide, h.1, h.2.2.2.2.2.2.2⟩

/-- C10: whenever `get_attachment` ends in a hard failure — bare
destination filename, start > end, a `None` bound, folder resolution
failure, no match, or a failed `SaveAsFile` — the instance's
`attachment_filepath` field (indeed the whole state) is unchanged: it
is assigned only after a successful save. -/
theorem fetch_hard_failure_keeps_state (st : OA) (outlook : List (String × Folder))
    (fl : List String) (subj att : String) (si ei : Option DateTime)
    (save : Option String) (er : Err)
    (h : (getAttachment st outlook fl subj att si ei save).result = .err er) :
    (getAttachment st outlook fl subj att si ei save).state = st := by
  rcases fetch_state_cases st outlook fl subj att si ei save with h1 | h1
  · exact h1
  · rw [h] at h1
    cases h1

/-- Witness for C10: a failing call (bare destination filename) leaves a
previously recorded path in place. -/
theorem fetch_hard_failure_keeps_state_witness :
    (getAttachment ⟨some "C:\\old\\a.xlsx"⟩ [] [] "s" "a" none none
        (some "bare.xlsx")).result = .err .savePathRequired
    ∧ (getAttachment ⟨some "C:\\old\\a.xlsx"⟩ [] [] "s" "a" none none
        (some "bare.xlsx")).state = ⟨some "C:\\old\\a.xlsx"⟩ :=
  ⟨by decide,
    fetch_hard_failure_keeps_state ⟨some "C:\\old\\a.xlsx"⟩ [] [] "s" "a" none none
      (some "bare.xlsx") .savePathRequired (by decide)⟩

end OutlookAttach
